import Mathlib

set_option maxRecDepth 10000
set_option linter.unreachableTactic false
set_option linter.unusedTactic false
set_option linter.unusedVariables false

/-!
Verification development for the lox password manager.

Scope of the embedding:

* `src/lox/core/cryptography/key_derivation.py` (derive_key),
  `src/lox/core/cryptography/encryption.py` (encrypt_data / decrypt_data),
  `src/lox/core/storage/local_vault.py` (Vault.save_vault / Vault.load_vault),
  `src/lox/core/services/vault_manager.py` (VaultManager CRUD operations),
  `core/credential_manager.py` (CredentialManager backend chain).

Modelling conventions:

* Bytes are `List Nat`; the vault file is the list of bytes that
  `save_vault` writes, and `load_vault` takes those bytes directly
  (file-system existence and I/O failures are outside the embedding).
* Python dicts are association lists in insertion order (`Obj`);
  assignment to an existing key replaces the value in place,
  assignment to a new key appends, exactly like an insertion-ordered dict.
* The `cryptography` library (PBKDF2HMAC, Fernet) and the `json` module are
  external dependencies, not part of the repository; they are modelled from
  the spec at their contract boundary (sections 4.1, 4.2 and 6 of the spec):
  an ideal deterministic KDF, an ideal authenticated cipher that accepts
  exactly the key that produced a ciphertext, and a JSON encoder/decoder
  (executable printer and parser defined below, with a proved round trip).
* `os.urandom` is modelled by passing the fresh random bytes explicitly
  as an argument (a random tape); `datetime.now()` likewise.
-/

/-- JSON values, as produced by Python `json.loads`: null, booleans, strings,
arrays and objects.  Objects are association lists in insertion order,
modelling Python dicts.  JSON numbers are omitted: the vault schema
(spec section 6) contains none, and Python floats are outside the embedding. -/
inductive Json where
  | null : Json
  | bool : Bool → Json
  | str : String → Json
  | arr : List Json → Json
  | obj : List (String × Json) → Json

/-- Association lists standing for Python dicts (insertion ordered). -/
abbrev Obj : Type := List (String × Json)

/-- Dict key lookup: `d.get(k)` / `d[k]` on a present key. -/
def Obj.lookup : Obj → String → Option Json
  | [], _ => none
  | (k, v) :: rest, key => if k = key then some v else Obj.lookup rest key

/-- Dict key membership: `k in d`. -/
def Obj.containsKey : Obj → String → Bool
  | [], _ => false
  | (k, _) :: rest, key => if k = key then true else Obj.containsKey rest key

/-- Dict assignment `d[k] = v`: replaces the value in place if the key is
present, otherwise appends the binding (insertion order semantics). -/
def Obj.insertPut : Obj → String → Json → Obj
  | [], key, v => [(key, v)]
  | (k, w) :: rest, key, v =>
      if k = key then (k, v) :: rest else (k, w) :: Obj.insertPut rest key v

/-- Dict deletion `del d[k]`: removes the binding of the key. -/
def Obj.erase : Obj → String → Obj
  | [], _ => []
  | (k, w) :: rest, key => if k = key then rest else (k, w) :: Obj.erase rest key

/-- Hex digit characters, lower case, as emitted by the JSON encoder. -/
def hexDigit (n : Nat) : Char :=
  if n = 0 then '0' else if n = 1 then '1' else if n = 2 then '2'
  else if n = 3 then '3' else if n = 4 then '4' else if n = 5 then '5'
  else if n = 6 then '6' else if n = 7 then '7' else if n = 8 then '8'
  else if n = 9 then '9' else if n = 10 then 'a' else if n = 11 then 'b'
  else if n = 12 then 'c' else if n = 13 then 'd' else if n = 14 then 'e'
  else 'f'

/-- Numeric value of a hex digit character (upper or lower case). -/
def hexVal (c : Char) : Option Nat :=
  if c = '0' then some 0 else if c = '1' then some 1 else if c = '2' then some 2
  else if c = '3' then some 3 else if c = '4' then some 4 else if c = '5' then some 5
  else if c = '6' then some 6 else if c = '7' then some 7 else if c = '8' then some 8
  else if c = '9' then some 9 else if c = 'a' then some 10 else if c = 'b' then some 11
  else if c = 'c' then some 12 else if c = 'd' then some 13 else if c = 'e' then some 14
  else if c = 'f' then some 15 else if c = 'A' then some 10 else if c = 'B' then some 11
  else if c = 'C' then some 12 else if c = 'D' then some 13 else if c = 'E' then some 14
  else if c = 'F' then some 15 else none

/-- JSON string escaping for one character: quote and backslash get a
backslash escape, control characters a \x5cu00XX escape, everything else is
emitted literally. -/
def escapeChar (c : Char) : List Char :=
  if c = '"' then ['\\', '"']
  else if c = '\\' then ['\\', '\\']
  else if c.toNat < 32 then
    ['\\', 'u', '0', '0', hexDigit (c.toNat / 16), hexDigit (c.toNat % 16)]
  else [c]

/-- JSON string escaping of a character list. -/
def escString : List Char → List Char
  | [] => []
  | c :: cs => escapeChar c ++ escString cs

mutual

/-- Modelled from the spec: the JSON serialisation performed by the external
`json.dumps` (spec section 6 fixes only that the plaintext is the JSON
encoding of the vault value; whitespace is immaterial to every claim, so the
encoder is the canonical minified form). -/
def dumpJson : Json → List Char
  | .null => ['n', 'u', 'l', 'l']
  | .bool b => if b then ['t', 'r', 'u', 'e'] else ['f', 'a', 'l', 's', 'e']
  | .str s => '"' :: (escString s.data ++ ['"'])
  | .arr [] => ['[', ']']
  | .arr (x :: xs) => '[' :: (dumpArrItems x xs ++ [']'])
  | .obj [] => ['\x7b', '\x7d']
  | .obj (kv :: kvs) => '\x7b' :: (dumpObjItems kv kvs ++ ['\x7d'])
termination_by v => sizeOf v
decreasing_by all_goals simp_wf <;> omega

/-- Comma separated encoding of the elements of a nonempty JSON array. -/
def dumpArrItems : Json → List Json → List Char
  | x, [] => dumpJson x
  | x, y :: ys => dumpJson x ++ ',' :: dumpArrItems y ys
termination_by x xs => 1 + sizeOf x + sizeOf xs
decreasing_by all_goals simp_wf <;> omega

/-- Comma separated encoding of the members of a nonempty JSON object. -/
def dumpObjItems : (String × Json) → List (String × Json) → List Char
  | (k, v), [] => '"' :: (escString k.data ++ '"' :: ':' :: dumpJson v)
  | (k, v), kv2 :: kvs =>
      ('"' :: (escString k.data ++ '"' :: ':' :: dumpJson v)) ++
        ',' :: dumpObjItems kv2 kvs
termination_by kv kvs => 1 + sizeOf kv + sizeOf kvs
decreasing_by all_goals simp_wf <;> omega

end

/-- Reads one escape sequence after a backslash, returning the decoded
character and the rest of the input. -/
def readEsc : List Char → Option (Char × List Char)
  | [] => none
  | e :: rest =>
    if e = 'u' then
      match rest with
      | h1 :: h2 :: h3 :: h4 :: rest2 =>
        match hexVal h1, hexVal h2, hexVal h3, hexVal h4 with
        | some a, some b, some c, some d =>
            some (Char.ofNat (((a * 16 + b) * 16 + c) * 16 + d), rest2)
        | _, _, _, _ => none
      | _ => none
    else if e = '"' then some ('"', rest)
    else if e = '\\' then some ('\\', rest)
    else if e = '/' then some ('/', rest)
    else if e = 'n' then some ('\n', rest)
    else if e = 't' then some ('\t', rest)
    else if e = 'r' then some ('\r', rest)
    else if e = 'b' then some ('\x08', rest)
    else if e = 'f' then some ('\x0c', rest)
    else none

/-- Body of a JSON string after the opening quote: returns the decoded
characters and the input after the closing quote.  Fuelled recursion: one
unit of fuel per decoded character. -/
def parseStrBody : Nat → List Char → Option (List Char × List Char)
  | 0, _ => none
  | _, [] => none
  | fuel + 1, c :: rest =>
    if c = '"' then some ([], rest)
    else if c = '\\' then
      match readEsc rest with
      | some (c2, rest2) =>
          match parseStrBody fuel rest2 with
          | some (s, r) => some (c2 :: s, r)
          | none => none
      | none => none
    else if c.toNat < 32 then none
    else
      match parseStrBody fuel rest with
      | some (s, r) => some (c :: s, r)
      | none => none

mutual

/-- Modelled from the spec: the JSON parser of the external `json.loads`,
on the canonical encoding produced by `dumpJson`.  Fuelled recursion. -/
def parseJson : Nat → List Char → Option (Json × List Char)
  | 0, _ => none
  | _, [] => none
  | fuel + 1, c :: rest =>
    if c = 'n' then
      match rest with
      | 'u' :: 'l' :: 'l' :: r => some (.null, r)
      | _ => none
    else if c = 't' then
      match rest with
      | 'r' :: 'u' :: 'e' :: r => some (.bool true, r)
      | _ => none
    else if c = 'f' then
      match rest with
      | 'a' :: 'l' :: 's' :: 'e' :: r => some (.bool false, r)
      | _ => none
    else if c = '"' then
      match parseStrBody fuel rest with
      | some (s, r) => some (.str (String.mk s), r)
      | none => none
    else if c = '[' then
      match rest with
      | [] => none
      | r0 :: rr =>
        if r0 = ']' then some (.arr [], rr)
        else
          match parseArrItems fuel (r0 :: rr) with
          | some (xs, r) => some (.arr xs, r)
          | none => none
    else if c = '\x7b' then
      match rest with
      | [] => none
      | r0 :: rr =>
        if r0 = '\x7d' then some (.obj [], rr)
        else
          match parseObjItems fuel (r0 :: rr) with
          | some (kvs, r) => some (.obj kvs, r)
          | none => none
    else none

/-- Elements of a nonempty JSON array including the closing bracket. -/
def parseArrItems : Nat → List Char → Option (List Json × List Char)
  | 0, _ => none
  | fuel + 1, cs =>
    match parseJson fuel cs with
    | some (x, rest) =>
      match rest with
      | [] => none
      | r0 :: rr =>
        if r0 = ',' then
          match parseArrItems fuel rr with
          | some (xs, r) => some (x :: xs, r)
          | none => none
        else if r0 = ']' then some ([x], rr)
        else none
    | none => none

/-- Members of a nonempty JSON object including the closing brace. -/
def parseObjItems : Nat → List Char → Option (List (String × Json) × List Char)
  | 0, _ => none
  | fuel + 1, cs =>
    match cs with
    | [] => none
    | c :: rest =>
      if c = '"' then
        match parseStrBody fuel rest with
        | some (k, r1) =>
          match r1 with
          | [] => none
          | c2 :: r2 =>
            if c2 = ':' then
              match parseJson fuel r2 with
              | some (v, r3) =>
                match r3 with
                | [] => none
                | c3 :: r4 =>
                  if c3 = ',' then
                    match parseObjItems fuel r4 with
                    | some (kvs, r) => some ((String.mk k, v) :: kvs, r)
                    | none => none
                  else if c3 = '\x7d' then some ([(String.mk k, v)], r4)
                  else none
              | none => none
            else none
        | none => none
      else none

end

/-- Modelled from the spec: `json.dumps` (see `dumpJson`). -/
def jsonDumps (v : Json) : String := String.mk (dumpJson v)

/-- Modelled from the spec: `json.loads` — parses a complete JSON document,
rejecting trailing input. -/
def jsonLoads (s : String) : Option Json :=
  match parseJson (s.data.length + 1) s.data with
  | some (v, []) => some v
  | _ => none

/-- Keys of an association list are pairwise distinct. -/
def nodupKeys : List (String × Json) → Bool
  | [] => true
  | (k, _) :: kvs => !Obj.containsKey kvs k && nodupKeys kvs

mutual

/-- Well-formed JSON values: every object has pairwise distinct keys.
These are exactly the values representable as Python dict trees, which is
what `json.dumps` is ever applied to in the source. -/
def wfJson : Json → Bool
  | .null => true
  | .bool _ => true
  | .str _ => true
  | .arr xs => wfArr xs
  | .obj kvs => nodupKeys kvs && wfMembers kvs
termination_by v => sizeOf v
decreasing_by all_goals simp_wf <;> omega

/-- All elements of an array are well formed. -/
def wfArr : List Json → Bool
  | [] => true
  | x :: xs => wfJson x && wfArr xs
termination_by xs => sizeOf xs
decreasing_by all_goals simp_wf <;> omega

/-- All member values of an object are well formed. -/
def wfMembers : List (String × Json) → Bool
  | [] => true
  | (_, v) :: kvs => wfJson v && wfMembers kvs
termination_by kvs => sizeOf kvs
decreasing_by all_goals simp_wf <;> omega

end

mutual

/-- Fuel needed by `parseJson` to parse the encoding of a value. -/
def sizeJson : Json → Nat
  | .null => 1
  | .bool _ => 1
  | .str s => s.data.length + 2
  | .arr [] => 1
  | .arr (x :: xs) => 1 + sizeArrItems x xs
  | .obj [] => 1
  | .obj (kv :: kvs) => 1 + sizeObjItems kv kvs
termination_by v => sizeOf v
decreasing_by all_goals simp_wf <;> omega

def sizeArrItems : Json → List Json → Nat
  | x, [] => 1 + sizeJson x
  | x, y :: ys => 1 + sizeJson x + sizeArrItems y ys
termination_by x xs => 1 + sizeOf x + sizeOf xs
decreasing_by all_goals simp_wf <;> omega

def sizeObjItems : (String × Json) → List (String × Json) → Nat
  | (k, v), [] => 2 + k.data.length + sizeJson v
  | (k, v), kv2 :: kvs => 2 + k.data.length + sizeJson v + sizeObjItems kv2 kvs
termination_by kv kvs => 1 + sizeOf kv + sizeOf kvs
decreasing_by all_goals simp_wf <;> omega

end

/-- Big-endian 4-byte encoding `len.to_bytes(4, "big")` of a number below
2^32, as written for the salt-length header by `Vault.save_vault`. -/
def natBE4 (n : Nat) : List Nat :=
  [n / 16777216 % 256, n / 65536 % 256, n / 256 % 256, n % 256]

/-- Big-endian byte decoding `int.from_bytes(bs, "big")`, as used by
`Vault.load_vault` on the 4-byte salt-length header. -/
def fromBE (bs : List Nat) : Nat :=
  bs.foldl (fun acc b => acc * 256 + b) 0

/-- The fixed salt length of `key_derivation.py` (SALT_LENGTH = 16). -/
def SALT_LENGTH : Nat := 16

/-- Derived key of the ideal KDF: determined exactly by the passphrase and
the salt. -/
structure DKey where
  password : String
  salt : List Nat
deriving DecidableEq

/-- Modelled from the spec: `derive_key` of `key_derivation.py` delegates the
key computation to the external PBKDF2HMAC; per spec section 4.1 the KDF is a
deterministic pure function of (passphrase, salt), and cryptographically the
keys of distinct inputs are distinct, so the ideal key simply records the
pair.  `os.urandom(SALT_LENGTH)` is modelled by the explicit `fresh`
argument, used exactly when `salt` is `None`. -/
def derive_key (master_password : String) (salt : Option (List Nat))
    (fresh : List Nat) : DKey × List Nat :=
  match salt with
  | some s => (⟨master_password, s⟩, s)
  | none => (⟨master_password, fresh⟩, fresh)

/-- Unicode code points of a string (the ideal cipher's byte view of the
UTF-8 plaintext). -/
def strPoints (s : String) : List Nat := s.data.map Char.toNat

/-- String recovered from code points. -/
def pointsStr (l : List Nat) : String := String.mk (l.map Char.ofNat)

/-- Key block of the ideal cipher: an injectively encoded form of the key
embedded in every ciphertext so that decryption can authenticate. -/
def keyBlock (k : DKey) : List Nat :=
  (strPoints k.password).length :: strPoints k.password ++ k.salt.length :: k.salt

/-- Modelled from the spec: `encrypt_data` of `encryption.py` delegates to the
external Fernet authenticated cipher (spec section 4.2).  The ideal cipher's
ciphertext is the length-prefixed key block followed by the plaintext code
points; it is opaque bytes to every caller. -/
def encrypt_data (data : String) (key : DKey) : List Nat :=
  (keyBlock key).length :: keyBlock key ++ strPoints data

/-- Modelled from the spec: `decrypt_data` of `encryption.py`.  The ideal
authenticated cipher accepts exactly the key that produced the ciphertext
(spec section 4.2: wrong key or corruption is detected, never silently
decrypted); on failure `encryption.py` raises
`DecryptionError("Decryption failed: Invalid token or corrupted data")`,
returned here as the `Except.error` message. -/
def decrypt_data (encrypted_data : List Nat) (key : DKey) : Except String String :=
  if encrypted_data.take ((keyBlock key).length + 1) =
      (keyBlock key).length :: keyBlock key then
    Except.ok (pointsStr (encrypted_data.drop ((keyBlock key).length + 1)))
  else
    Except.error "Decryption failed: Invalid token or corrupted data"

/-- The typed error `VaultOperationError` of `exceptions.py`, with its
message. -/
structure VaultOperationError where
  msg : String
deriving DecidableEq

/-- Source `Vault.save_vault` of `local_vault.py`: derive a key with a fresh salt,
JSON-encode the data, encrypt, and write the salt-length header, the salt and
the ciphertext.  The written file is returned as bytes (I/O errors are
outside the embedding); `os.urandom` is the explicit `freshSalt` tape. -/
def save_vault (data : Json) (master_password : String)
    (freshSalt : List Nat) : List Nat :=
  let ks := derive_key master_password none freshSalt
  let json_data := jsonDumps data
  let encrypted_data := encrypt_data json_data ks.1
  natBE4 ks.2.length ++ ks.2 ++ encrypted_data

/-- Salt length parsed from the first four bytes of a vault file
(`int.from_bytes(f.read(4), "big")`). -/
def saltLengthOf (file : List Nat) : Nat := fromBE (file.take 4)

/-- Salt parsed from a vault file (`f.read(salt_length)`). -/
def saltOf (file : List Nat) : List Nat :=
  (file.drop 4).take (saltLengthOf file)

/-- Ciphertext parsed from a vault file (`f.read()`, the remainder). -/
def ciphertextOf (file : List Nat) : List Nat :=
  (file.drop 4).drop (saltLengthOf file)

/-- Source `Vault.load_vault` of `local_vault.py`: parse the header, the salt and
the ciphertext, derive the key with the stored salt, decrypt, JSON-parse.

Exception routing, from the class hierarchy of `exceptions.py`:
`DecryptionError` subclasses `LoxError(Exception)` — not `ValueError` — so it
is caught by the second handler (`except Exception`), which wraps it as
`VaultOperationError("Unexpected error while loading vault: " + str(e))`.
A JSON parse failure raises `json.JSONDecodeError`, a subclass of
`ValueError`, so it is caught by the first handler, which wraps it as
`VaultOperationError("Failed to decrypt vault. The master password may be
incorrect or the file is corrupted.")`.  The file-not-found branch is outside
the embedding (the file bytes are given directly). -/
def load_vault (file : List Nat) (master_password : String) :
    Except VaultOperationError Json :=
  let salt := saltOf file
  let encrypted_data := ciphertextOf file
  let kd := derive_key master_password (some salt) []
  match decrypt_data encrypted_data kd.1 with
  | Except.error m =>
      Except.error ⟨"Unexpected error while loading vault: " ++ m⟩
  | Except.ok decrypted_json =>
      match jsonLoads decrypted_json with
      | some vault_data => Except.ok vault_data
      | none =>
          Except.error
            ⟨"Failed to decrypt vault. The master password may be incorrect or the file is corrupted."⟩

/-- Errors of the VaultManager operations.  `vaultError` is the typed
`VaultError` of `exceptions.py` (its message text is not load bearing for
any claim and is omitted); `typeError` marks the branches where Python would
raise a `TypeError` because the vault state is not shaped like a vault
(a non-dict under "services" or under a service name) — those states are
outside every claim. -/
inductive VMError where
  | vaultError : VMError
  | typeError : VMError
deriving DecidableEq

/-- Source `VaultManager.add_password_entry`: raises `VaultError` when the name is
already a key of `vault_data.get("services", {})`; otherwise
`vault_data.setdefault("services", {})[name] = {"password": password}`. -/
def add_password_entry (name password : String) (vault_data : Obj) :
    Except VMError Obj :=
  match Obj.lookup vault_data "services" with
  | some (Json.obj s) =>
      if Obj.containsKey s name then Except.error VMError.vaultError
      else
        Except.ok
          (Obj.insertPut vault_data "services"
            (Json.obj (Obj.insertPut s name (Json.obj [("password", Json.str password)]))))
  | none =>
      Except.ok
        (Obj.insertPut vault_data "services"
          (Json.obj [(name, Json.obj [("password", Json.str password)])]))
  | some _ => Except.error VMError.typeError

/-- Source `VaultManager.update_password_entry`: raises `VaultError` when the name is
not a key of `vault_data.get("services", {})`; otherwise
`vault_data["services"][name]["password"] = password`. -/
def update_password_entry (name password : String) (vault_data : Obj) :
    Except VMError Obj :=
  match Obj.lookup vault_data "services" with
  | some (Json.obj s) =>
      match Obj.lookup s name with
      | some (Json.obj r) =>
          Except.ok
            (Obj.insertPut vault_data "services"
              (Json.obj (Obj.insertPut s name
                (Json.obj (Obj.insertPut r "password" (Json.str password))))))
      | some _ =>
          if Obj.containsKey s name then Except.error VMError.typeError
          else Except.error VMError.vaultError
      | none => Except.error VMError.vaultError
  | none => Except.error VMError.vaultError
  | some _ => Except.error VMError.typeError

/-- Source `VaultManager.delete_password_entry`: deletes the entry and returns True
if the name is a key of `vault_data.get("services", {})`, otherwise returns
False without raising. -/
def delete_password_entry (name : String) (vault_data : Obj) : Bool × Obj :=
  match Obj.lookup vault_data "services" with
  | some (Json.obj s) =>
      if Obj.containsKey s name then
        (true, Obj.insertPut vault_data "services" (Json.obj (Obj.erase s name)))
      else (false, vault_data)
  | _ => (false, vault_data)

/-- Source `VaultManager.get_service_names`: `list(vault_data.get("services", {}).keys())`. -/
def get_service_names (vault_data : Obj) : List String :=
  match Obj.lookup vault_data "services" with
  | some (Json.obj s) => s.map Prod.fst
  | _ => []

/-- Source `VaultManager.get_password`:
`service = vault_data.get("services", {}).get(service_name)` followed by
`service.get("password") if service else None`.  A present service record is
modelled as a JSON object (a truthy non-dict record would raise
`AttributeError` in Python and is outside the modelled states); the empty
dict is falsy in Python, hence yields None. -/
def get_password (service_name : String) (vault_data : Obj) : Option Json :=
  match Obj.lookup vault_data "services" with
  | some (Json.obj s) =>
      match Obj.lookup s service_name with
      | some (Json.obj r) =>
          if r.length = 0 then none else Obj.lookup r "password"
      | _ => none
  | _ => none

/-- The `StorageBackend` enum of `credential_manager.py`. -/
inductive StorageBackend where
  | keyring : StorageBackend
  | env_file : StorageBackend
  | fallback : StorageBackend
deriving DecidableEq

/-- Source `StorageBackend.value` — the enum's string value. -/
def StorageBackend.value : StorageBackend → String
  | .keyring => "keyring"
  | .env_file => "env_file"
  | .fallback => "fallback"

/-- Source `StorageBackend(s)` — parsing a string back into the enum
(`ValueError`, i.e. `none`, when it is not one of the three values). -/
def StorageBackend.ofValue (s : String) : Option StorageBackend :=
  if s = "keyring" then some .keyring
  else if s = "env_file" then some .env_file
  else if s = "fallback" then some .fallback
  else none

/-- Source `CredentialManager._backend_preference`: the fixed preference order. -/
def backend_preference : List StorageBackend :=
  [.keyring, .env_file, .fallback]

/-- State of a `CredentialManager` instance together with its observable
world: the system keyring, the permissioned credentials file and the process
environment.  The `keyringOk`, `fileOk` and `envOk` flags model whether the
corresponding facility is currently able to store/read/delete (a false flag
stands for `keyring.errors.KeyringError` / `IOError` / an environment
failure being raised by the facility).  The stored blobs are kept in parsed
JSON form. -/
structure CredWorld where
  keyringOk : Bool
  keyringStore : Option Json
  fileOk : Bool
  fileStore : Option Json
  envOk : Bool
  envAccess : Option String
  envSecret : Option String
  envRegion : Option String
  used_backend : Option StorageBackend

/-- String field of a credential dict (the dicts built by
`store_credentials` always hold strings in these fields). -/
def getStrField (d : Obj) (key : String) : String :=
  match Obj.lookup d key with
  | some (Json.str s) => s
  | _ => ""

/-- Optional string field of a credential dict: `d.get(key)` restricted to
the modelled string-valued records (`None`/absent gives none). -/
def getStrFieldOpt (d : Obj) (key : String) : Option String :=
  match Obj.lookup d key with
  | some (Json.str s) => some s
  | _ => none

/-- Python `d.get("region", "us-east-1")`. -/
def getRegionField (d : Obj) : String :=
  match Obj.lookup d "region" with
  | some (Json.str s) => s
  | _ => "us-east-1"

/-- Source `CredentialManager._store_with_keyring`: serialises the record into the
system keyring; `KeyringError` (modelled by `keyringOk = false`) is caught
and reported as False. -/
def store_with_keyring (credential_data : Obj) (w : CredWorld) : Bool × CredWorld :=
  if w.keyringOk then (true, { w with keyringStore := some (Json.obj credential_data) })
  else (false, w)

/-- Source `CredentialManager._store_with_env_file`: writes the record as JSON to
the permissioned file; `IOError`/`PermissionError` (modelled by
`fileOk = false`) is caught and reported as False. -/
def store_with_env_file (credential_data : Obj) (w : CredWorld) : Bool × CredWorld :=
  if w.fileOk then (true, { w with fileStore := some (Json.obj credential_data) })
  else (false, w)

/-- Source `CredentialManager._store_fallback`: writes the access key, secret key
and region into process environment variables. -/
def store_fallback (credential_data : Obj) (w : CredWorld) : Bool × CredWorld :=
  if w.envOk then
    (true,
      { w with
        envAccess := some (getStrField credential_data "access_key"),
        envSecret := some (getStrField credential_data "secret_key"),
        envRegion := some (getStrField credential_data "region") })
  else (false, w)

/-- Source `CredentialManager._get_storage_method`: the dispatch table from backend
to store method. -/
def storage_method (b : StorageBackend) (credential_data : Obj) (w : CredWorld) :
    Bool × CredWorld :=
  match b with
  | .keyring => store_with_keyring credential_data w
  | .env_file => store_with_env_file credential_data w
  | .fallback => store_fallback credential_data w

/-- The loop body of `CredentialManager.store_credentials`: try the backends
in order; on the first backend whose store succeeds, stamp the record's
`storage_backend` field with the backend's value, re-store the stamped
record (result unchecked), set the sticky `_used_backend` and return; when
every backend fails raise `CredentialStorageError`. -/
def store_loop (credential_data : Obj) :
    List StorageBackend → CredWorld → Except String CredWorld
  | [], _ => Except.error "All credential storage methods failed"
  | b :: rest, w =>
    let r1 := storage_method b credential_data w
    if r1.1 then
      let data2 := Obj.insertPut credential_data "storage_backend" (Json.str b.value)
      let r2 := storage_method b data2 r1.2
      Except.ok { r2.2 with used_backend := some b }
    else store_loop credential_data rest r1.2

/-- Source `CredentialManager.store_credentials`: builds the credential dict (with
`storage_backend` initially None) and runs the backend loop.  `expiry`
stands for the computed `expiry_time.isoformat()` (time is modelled as an
input). -/
def store_credentials (access_key secret_key region expiry : String)
    (w : CredWorld) : Except String CredWorld :=
  let credential_data : Obj :=
    [("access_key", Json.str access_key),
     ("secret_key", Json.str secret_key),
     ("region", Json.str region),
     ("expiry", Json.str expiry),
     ("storage_backend", Json.null)]
  store_loop credential_data backend_preference w

/-- Result of a backend retrieval as Python sees it: `None`, or a 3-tuple
(whose components may themselves be None, as the environment fallback
produces). -/
inductive GotCreds where
  | missing : GotCreds
  | triple : Option String → Option String → Option String → GotCreds

/-- Source `CredentialManager._get_from_keyring`: reads and parses the keyring blob;
a non-dict blob is the old format and yields None; absent/falsy access or
secret key yields None; a present `storage_backend` string that parses into
the enum self-heals the sticky `_used_backend`.  `KeyringError` (modelled by
`keyringOk = false`) yields None. -/
def get_from_keyring (w : CredWorld) : GotCreds × CredWorld :=
  if w.keyringOk then
    match w.keyringStore with
    | some (Json.obj d) =>
        match getStrFieldOpt d "access_key", getStrFieldOpt d "secret_key" with
        | some a, some s =>
            if a = "" ∨ s = "" then (GotCreds.missing, w)
            else
              let w1 :=
                match getStrFieldOpt d "storage_backend" with
                | some bs =>
                    match StorageBackend.ofValue bs with
                    | some b => { w with used_backend := some b }
                    | none => w
                | none => w
              (GotCreds.triple (some a) (some s) (some (getRegionField d)), w1)
        | _, _ => (GotCreds.missing, w)
    | some _ => (GotCreds.missing, w)
    | none => (GotCreds.missing, w)
  else (GotCreds.missing, w)

/-- Source `CredentialManager._get_from_env_file`: same parsing on the permissioned
file (absent file or `IOError`, modelled by `fileOk = false`, yields None). -/
def get_from_env_file (w : CredWorld) : GotCreds × CredWorld :=
  if w.fileOk then
    match w.fileStore with
    | some (Json.obj d) =>
        match getStrFieldOpt d "access_key", getStrFieldOpt d "secret_key" with
        | some a, some s =>
            if a = "" ∨ s = "" then (GotCreds.missing, w)
            else
              let w1 :=
                match getStrFieldOpt d "storage_backend" with
                | some bs =>
                    match StorageBackend.ofValue bs with
                    | some b => { w with used_backend := some b }
                    | none => w
                | none => w
              (GotCreds.triple (some a) (some s) (some (getRegionField d)), w1)
        | _, _ => (GotCreds.missing, w)
    | some _ => (GotCreds.missing, w)
    | none => (GotCreds.missing, w)
  else (GotCreds.missing, w)

/-- Source `CredentialManager._get_fallback`: always returns the 3-tuple of
environment variables, with the region defaulting to "us-east-1". -/
def get_fallback (w : CredWorld) : GotCreds × CredWorld :=
  (GotCreds.triple w.envAccess w.envSecret (some (w.envRegion.getD "us-east-1")), w)

/-- Source `CredentialManager._get_from_backend`: the dispatch table from backend to
retrieval method. -/
def get_from_backend (b : StorageBackend) (w : CredWorld) : GotCreds × CredWorld :=
  match b with
  | .keyring => get_from_keyring w
  | .env_file => get_from_env_file w
  | .fallback => get_fallback w

/-- The probing loop of `CredentialManager.get_credentials`: try all backends
in preference order; a truthy result (any 3-tuple — including the
environment fallback's tuple of Nones — is truthy in Python) passes the
`isinstance`/length/expiry checks, sets the sticky `_used_backend` to the
probed backend and is returned; after the loop the final
`return self._get_fallback()` runs (dead code while the fallback backend is
in the preference list, kept for fidelity). -/
def probe_loop : List StorageBackend → CredWorld →
    (Option String × Option String × Option String) × CredWorld
  | [], w => ((w.envAccess, w.envSecret, some (w.envRegion.getD "us-east-1")), w)
  | b :: rest, w =>
    let gr := get_from_backend b w
    match gr.1 with
    | GotCreds.triple a s r => ((a, s, r), { gr.2 with used_backend := some b })
    | GotCreds.missing => probe_loop rest gr.2

/-- Source `CredentialManager.get_credentials`: fast path through the sticky
`_used_backend` when set (returning its result if truthy and unexpired —
`_are_credentials_expired` is constantly False in the source), otherwise the
probing loop over all backends. -/
def get_credentials (w0 : CredWorld) :
    (Option String × Option String × Option String) × CredWorld :=
  match w0.used_backend with
  | some b =>
      let gr := get_from_backend b w0
      match gr.1 with
      | GotCreds.triple a s r => ((a, s, r), gr.2)
      | GotCreds.missing => probe_loop backend_preference gr.2
  | none => probe_loop backend_preference w0

/-- Source `CredentialManager.clear_credentials`: best-effort deletion on every
backend.  `keyring.delete_password` raises a `KeyringError` when the
facility is unavailable or when no credential is stored
(`PasswordDeleteError` subclasses `KeyringError`), turning `success` False;
the file is unlinked only if present, an `IOError` (modelled by
`fileOk = false`) turns `success` False; the environment variables are
always popped (popping cannot fail); the sticky `_used_backend` is always
reset. -/
def clear_credentials (w : CredWorld) : Bool × CredWorld :=
  let kOk := w.keyringOk && w.keyringStore.isSome
  let w1 := if kOk then { w with keyringStore := none } else w
  let fOk := !w1.fileStore.isSome || w1.fileOk
  let w2 :=
    if w1.fileStore.isSome && w1.fileOk then { w1 with fileStore := none } else w1
  let w3 := { w2 with envAccess := none, envSecret := none, envRegion := none }
  (kOk && fOk, { w3 with used_backend := none })

/-! Helper lemmas: association lists. -/

theorem Obj.lookup_insertPut_self (m : Obj) (k : String) (v : Json) :
    (Obj.insertPut m k v).lookup k = some v := by
  induction m with
  | nil => simp [Obj.insertPut, Obj.lookup]
  | cons kv rest ih =>
      obtain ⟨k0, v0⟩ := kv
      by_cases h : k0 = k <;> simp [Obj.insertPut, Obj.lookup, h, ih]

theorem Obj.lookup_insertPut_ne (m : Obj) (k k' : String) (v : Json)
    (h : k' ≠ k) : (Obj.insertPut m k v).lookup k' = m.lookup k' := by
  have hk : k ≠ k' := Ne.symm h
  induction m with
  | nil => simp [Obj.insertPut, Obj.lookup, hk]
  | cons kv rest ih =>
      obtain ⟨k0, v0⟩ := kv
      by_cases h0 : k0 = k
      · have h1 : k0 ≠ k' := by rw [h0]; exact hk
        simp [Obj.insertPut, Obj.lookup, h0, h1, hk]
      · by_cases h1 : k0 = k' <;>
          simp [Obj.insertPut, Obj.lookup, h0, h1, hk, h, ih]

theorem Obj.containsKey_eq_isSome_lookup (m : Obj) (k : String) :
    Obj.containsKey m k = (Obj.lookup m k).isSome := by
  induction m with
  | nil => simp [Obj.containsKey, Obj.lookup]
  | cons kv rest ih =>
      obtain ⟨k0, v0⟩ := kv
      by_cases h : k0 = k <;> simp [Obj.containsKey, Obj.lookup, h, ih]

/-! Helper lemmas: big-endian byte headers. -/

theorem fromBE_natBE4 (n : Nat) (h : n < 4294967296) : fromBE (natBE4 n) = n := by
  simp [fromBE, natBE4, List.foldl]
  omega

theorem natBE4_take (n : Nat) (rest : List Nat) :
    (natBE4 n ++ rest).take 4 = natBE4 n := by
  simp [natBE4]

theorem natBE4_drop (n : Nat) (rest : List Nat) :
    (natBE4 n ++ rest).drop 4 = rest := by
  simp [natBE4]

/-! Helper lemmas: characters, strings and code points. -/

theorem charToNat_injective : Function.Injective Char.toNat := by
  intro a b h
  exact Char.ext (UInt32.toNat.inj h)

theorem strPoints_injective (p q : String) (h : strPoints p = strPoints q) :
    p = q := by
  have hd : p.data = q.data :=
    List.map_injective_iff.mpr charToNat_injective h
  exact String.ext hd

theorem pointsStr_strPoints (s : String) : pointsStr (strPoints s) = s := by
  unfold pointsStr strPoints
  rw [List.map_map]
  have : s.data.map (Char.ofNat ∘ Char.toNat) = s.data.map id := by
    apply List.map_congr_left
    intro c _
    simp [Char.ofNat_toNat]
  rw [this, List.map_id]

/-! Helper lemmas: the ideal cipher. -/

theorem keyBlock_inj_same_salt (p1 p2 : String) (s : List Nat)
    (h : keyBlock ⟨p1, s⟩ = keyBlock ⟨p2, s⟩) : p1 = p2 := by
  unfold keyBlock at h
  simp only at h
  have hlen : (strPoints p1).length = (strPoints p2).length := (List.cons.injEq _ _ _ _).mp h |>.1
  have happ : strPoints p1 ++ s.length :: s = strPoints p2 ++ s.length :: s :=
    (List.cons.injEq _ _ _ _).mp h |>.2
  have := (List.append_inj happ hlen).1
  exact strPoints_injective _ _ this

theorem cons_append_take (x : Nat) (l rest : List Nat) :
    ((x :: l) ++ rest).take (l.length + 1) = x :: l := by
  have h : (x :: l).length = l.length + 1 := by simp
  rw [← h, List.take_left]

theorem cons_append_drop (x : Nat) (l rest : List Nat) :
    ((x :: l) ++ rest).drop (l.length + 1) = rest := by
  have h : (x :: l).length = l.length + 1 := by simp
  rw [← h, List.drop_left]

theorem decrypt_encrypt_ok (d : String) (k : DKey) :
    decrypt_data (encrypt_data d k) k = Except.ok d := by
  unfold decrypt_data encrypt_data
  rw [if_pos (cons_append_take _ _ _)]
  rw [cons_append_drop]
  rw [pointsStr_strPoints]

theorem decrypt_encrypt_wrong_password (d : String) (p1 p2 : String) (s : List Nat)
    (h : p1 ≠ p2) :
    decrypt_data (encrypt_data d ⟨p1, s⟩) ⟨p2, s⟩ =
      Except.error "Decryption failed: Invalid token or corrupted data" := by
  unfold decrypt_data encrypt_data
  rw [if_neg]
  intro hc
  rw [List.cons_append, List.take_succ_cons] at hc
  have hlen : (keyBlock ⟨p1, s⟩).length = (keyBlock ⟨p2, s⟩).length :=
    ((List.cons.injEq _ _ _ _).mp hc).1
  have htake : (keyBlock ⟨p1, s⟩ ++ strPoints d).take (keyBlock ⟨p2, s⟩).length =
      keyBlock ⟨p2, s⟩ := ((List.cons.injEq _ _ _ _).mp hc).2
  rw [← hlen, List.take_left] at htake
  exact h (keyBlock_inj_same_salt p1 p2 s htake)

/-! Helper lemmas: structural induction over JSON values. -/

theorem Json.memInduction {P : Json → Prop} (hnull : P .null)
    (hbool : ∀ b, P (.bool b)) (hstr : ∀ s, P (.str s))
    (harr : ∀ xs, (∀ x ∈ xs, P x) → P (.arr xs))
    (hobj : ∀ kvs, (∀ kv ∈ kvs, P kv.2) → P (.obj kvs)) : ∀ v, P v
  | .null => hnull
  | .bool b => hbool b
  | .str s => hstr s
  | .arr xs => harr xs (fun x hx => Json.memInduction hnull hbool hstr harr hobj x)
  | .obj kvs =>
      hobj kvs (fun kv hkv => Json.memInduction hnull hbool hstr harr hobj kv.2)
termination_by v => sizeOf v
decreasing_by
  · simp_wf
    have := List.sizeOf_lt_of_mem hx
    omega
  · simp_wf
    have h1 := List.sizeOf_lt_of_mem hkv
    have h2 : sizeOf kv.2 < sizeOf kv := by cases kv; simp
    omega

/-! Helper lemmas: the JSON printer and parser round trip. -/

theorem stringMk_data (s : String) : String.mk s.data = s := by cases s; rfl

theorem hexVal_hexDigit : ∀ n, n < 16 → hexVal (hexDigit n) = some n := by decide

theorem parseStrBody_escString :
    ∀ (l : List Char) (fuel : Nat) (tail : List Char), l.length < fuel →
      parseStrBody fuel (escString l ++ '"' :: tail) = some (l, tail) := by
  intro l
  induction l with
  | nil =>
      intro fuel tail hf
      cases fuel with
      | zero => omega
      | succ f => simp [escString, parseStrBody]
  | cons c cs ih =>
      intro fuel tail hf
      cases fuel with
      | zero => omega
      | succ f =>
        have hih := ih f tail (by simp at hf; omega)
        by_cases h1 : c = '"'
        · subst h1
          have he : escapeChar '"' = ['\\', '"'] := by decide
          simp [escString, he, parseStrBody, readEsc, hih]
        · by_cases h2 : c = '\\'
          · subst h2
            have he : escapeChar '\\' = ['\\', '\\'] := by decide
            simp [escString, he, parseStrBody, readEsc, hih]
          · by_cases h3 : c.toNat < 32
            · have he : escapeChar c =
                  ['\\', 'u', '0', '0', hexDigit (c.toNat / 16),
                    hexDigit (c.toNat % 16)] := by
                simp [escapeChar, h1, h2, h3]
              have hv0 : hexVal '0' = some 0 := by decide
              have hv1 := hexVal_hexDigit (c.toNat / 16) (by omega)
              have hv2 := hexVal_hexDigit (c.toNat % 16) (by omega)
              have hn1 : c.toNat / 16 * 16 + c.toNat % 16 = c.toNat := by omega
              have hn2 : 16 * (c.toNat / 16) + c.toNat % 16 = c.toNat := by omega
              have hn3 : ((0 * 16 + 0) * 16 + c.toNat / 16) * 16 + c.toNat % 16
                  = c.toNat := by omega
              simp [escString, he, parseStrBody, readEsc, hv0, hv1, hv2, hn1, hn2, hn3,
                Char.ofNat_toNat, hih]
            · have he : escapeChar c = [c] := by simp [escapeChar, h1, h2, h3]
              simp [escString, he, parseStrBody, h1, h2, h3, hih]

theorem dumpJson_head (v : Json) :
    ∃ c cs, dumpJson v = c :: cs ∧ c ≠ ']' ∧ c ≠ '\x7d' := by
  cases v with
  | null => exact ⟨'n', ['u', 'l', 'l'], by simp [dumpJson], by decide, by decide⟩
  | bool b =>
      cases b
      · exact ⟨'f', ['a', 'l', 's', 'e'], by simp [dumpJson], by decide, by decide⟩
      · exact ⟨'t', ['r', 'u', 'e'], by simp [dumpJson], by decide, by decide⟩
  | str s =>
      exact ⟨'"', escString s.data ++ ['"'], by simp [dumpJson], by decide, by decide⟩
  | arr xs =>
      cases xs with
      | nil => exact ⟨'[', [']'], by simp [dumpJson], by decide, by decide⟩
      | cons x xs =>
          exact ⟨'[', dumpArrItems x xs ++ [']'], by simp [dumpJson], by decide,
            by decide⟩
  | obj kvs =>
      cases kvs with
      | nil => exact ⟨'\x7b', ['\x7d'], by simp [dumpJson], by decide, by decide⟩
      | cons kv kvs =>
          exact ⟨'\x7b', dumpObjItems kv kvs ++ ['\x7d'], by simp [dumpJson],
            by decide, by decide⟩

theorem dumpArrItems_eq (x : Json) (xs : List Json) :
    ∃ t, dumpArrItems x xs = dumpJson x ++ t := by
  cases xs with
  | nil => exact ⟨[], by simp [dumpArrItems]⟩
  | cons y ys => exact ⟨',' :: dumpArrItems y ys, by simp [dumpArrItems]⟩

theorem dumpObjItems_eq (kv : String × Json) (kvs : List (String × Json)) :
    ∃ t, dumpObjItems kv kvs = '"' :: t := by
  obtain ⟨k, v⟩ := kv
  cases kvs with
  | nil => exact ⟨escString k.data ++ '"' :: ':' :: dumpJson v, by simp [dumpObjItems]⟩
  | cons kv2 kvs =>
      exact ⟨(escString k.data ++ '"' :: ':' :: dumpJson v) ++
        ',' :: dumpObjItems kv2 kvs, by simp [dumpObjItems]⟩

theorem parseJson_str_step (f : Nat) (rest : List Char) :
    parseJson (f + 1) ('"' :: rest) =
      match parseStrBody f rest with
      | some (s, r) => some (.str (String.mk s), r)
      | none => none := by
  simp [parseJson]

theorem parseJson_arr_step (f : Nat) (x : Json) (xs : List Json) (tail : List Char) :
    parseJson (f + 1) ('[' :: (dumpArrItems x xs ++ ']' :: tail)) =
      match parseArrItems f (dumpArrItems x xs ++ ']' :: tail) with
      | some (ys, r) => some (.arr ys, r)
      | none => none := by
  obtain ⟨c, cs, hd, hc1, _⟩ := dumpJson_head x
  obtain ⟨t, ht⟩ := dumpArrItems_eq x xs
  rw [ht, hd]
  simp only [List.cons_append, List.append_assoc]
  simp [parseJson, hc1]

theorem parseJson_obj_step (f : Nat) (kv : String × Json)
    (kvs : List (String × Json)) (tail : List Char) :
    parseJson (f + 1) ('\x7b' :: (dumpObjItems kv kvs ++ '\x7d' :: tail)) =
      match parseObjItems f (dumpObjItems kv kvs ++ '\x7d' :: tail) with
      | some (ys, r) => some (.obj ys, r)
      | none => none := by
  obtain ⟨t, ht⟩ := dumpObjItems_eq kv kvs
  rw [ht]
  simp only [List.cons_append, List.append_assoc]
  simp [parseJson]

theorem parseArrItems_dump : ∀ (xs : List Json) (x : Json),
    (∀ z, z ∈ x :: xs → ∀ fuel tail, sizeJson z ≤ fuel →
      parseJson fuel (dumpJson z ++ tail) = some (z, tail)) →
    ∀ fuel tail, sizeArrItems x xs ≤ fuel →
      parseArrItems fuel (dumpArrItems x xs ++ ']' :: tail) = some (x :: xs, tail) := by
  intro xs
  induction xs with
  | nil =>
      intro x hmem fuel tail hf
      have hf' : 1 + sizeJson x ≤ fuel := by simpa [sizeArrItems] using hf
      cases fuel with
      | zero => omega
      | succ f =>
          have hx := hmem x (by simp) f (']' :: tail) (by omega)
          simp [parseArrItems, dumpArrItems, hx]
  | cons y ys ih =>
      intro x hmem fuel tail hf
      have hf' : 1 + sizeJson x + sizeArrItems y ys ≤ fuel := by
        simpa [sizeArrItems] using hf
      cases fuel with
      | zero => omega
      | succ f =>
          have hx := hmem x (by simp) f
            (',' :: (dumpArrItems y ys ++ ']' :: tail)) (by omega)
          have hrec := ih y (fun z hz => hmem z (by simp at hz ⊢; tauto)) f tail
            (by omega)
          rw [show dumpArrItems x (y :: ys) ++ ']' :: tail
              = dumpJson x ++ (',' :: (dumpArrItems y ys ++ ']' :: tail)) from by
            simp [dumpArrItems]]
          simp [parseArrItems, hx, hrec]

theorem parseObjItems_dump : ∀ (kvs : List (String × Json)) (kv : String × Json),
    (∀ z, z ∈ kv :: kvs → ∀ fuel tail, sizeJson z.2 ≤ fuel →
      parseJson fuel (dumpJson z.2 ++ tail) = some (z.2, tail)) →
    ∀ fuel tail, sizeObjItems kv kvs ≤ fuel →
      parseObjItems fuel (dumpObjItems kv kvs ++ '\x7d' :: tail) =
        some (kv :: kvs, tail) := by
  intro kvs
  induction kvs with
  | nil =>
      intro kv hmem fuel tail hf
      obtain ⟨k, v⟩ := kv
      have hf' : 2 + k.data.length + sizeJson v ≤ fuel := by
        simpa [sizeObjItems] using hf
      cases fuel with
      | zero => omega
      | succ f =>
          have hk := parseStrBody_escString k.data f
            (':' :: (dumpJson v ++ '\x7d' :: tail)) (by omega)
          have hv := hmem (k, v) (by simp) f ('\x7d' :: tail)
            (by show sizeJson v ≤ f; omega)
          rw [show dumpObjItems (k, v) [] ++ '\x7d' :: tail
              = '"' :: (escString k.data ++
                  '"' :: (':' :: (dumpJson v ++ '\x7d' :: tail))) from by
            simp [dumpObjItems]]
          simp [parseObjItems, hk, hv, stringMk_data]
  | cons kv2 kvs2 ih =>
      intro kv hmem fuel tail hf
      obtain ⟨k, v⟩ := kv
      have hf' : 2 + k.data.length + sizeJson v + sizeObjItems kv2 kvs2 ≤ fuel := by
        simpa [sizeObjItems] using hf
      cases fuel with
      | zero => omega
      | succ f =>
          have hk := parseStrBody_escString k.data f
            (':' :: (dumpJson v ++
              (',' :: (dumpObjItems kv2 kvs2 ++ '\x7d' :: tail)))) (by omega)
          have hv := hmem (k, v) (by simp) f
            (',' :: (dumpObjItems kv2 kvs2 ++ '\x7d' :: tail))
            (by show sizeJson v ≤ f; omega)
          have hrec := ih kv2 (fun z hz => hmem z (by simp at hz ⊢; tauto)) f tail
            (by omega)
          rw [show dumpObjItems (k, v) (kv2 :: kvs2) ++ '\x7d' :: tail
              = '"' :: (escString k.data ++
                  '"' :: (':' :: (dumpJson v ++
                    (',' :: (dumpObjItems kv2 kvs2 ++ '\x7d' :: tail))))) from by
            simp [dumpObjItems]]
          simp [parseObjItems, hk, hv, hrec, stringMk_data]

theorem parseJson_dumpJson : ∀ (v : Json) (fuel : Nat) (tail : List Char),
    sizeJson v ≤ fuel → parseJson fuel (dumpJson v ++ tail) = some (v, tail) := by
  intro v
  induction v using Json.memInduction with
  | hnull =>
      intro fuel tail hf
      have hf' : 1 ≤ fuel := by simpa [sizeJson] using hf
      cases fuel with
      | zero => omega
      | succ f => simp [dumpJson, parseJson]
  | hbool b =>
      intro fuel tail hf
      have hf' : 1 ≤ fuel := by cases b <;> simpa [sizeJson] using hf
      cases fuel with
      | zero => omega
      | succ f => cases b <;> simp [dumpJson, parseJson]
  | hstr s =>
      intro fuel tail hf
      have hf' : s.data.length + 2 ≤ fuel := by simpa [sizeJson] using hf
      cases fuel with
      | zero => omega
      | succ f =>
          rw [show dumpJson (Json.str s) ++ tail
              = '"' :: (escString s.data ++ '"' :: tail) from by simp [dumpJson]]
          rw [parseJson_str_step]
          rw [parseStrBody_escString s.data f tail (by omega)]
  | harr xs hmem =>
      intro fuel tail hf
      cases xs with
      | nil =>
          have hf' : 1 ≤ fuel := by simpa [sizeJson] using hf
          cases fuel with
          | zero => omega
          | succ f => simp [dumpJson, parseJson]
      | cons x xs' =>
          have hf' : 1 + sizeArrItems x xs' ≤ fuel := by simpa [sizeJson] using hf
          cases fuel with
          | zero => omega
          | succ f =>
              have hArr := parseArrItems_dump xs' x hmem f tail (by omega)
              rw [show dumpJson (Json.arr (x :: xs')) ++ tail
                  = '[' :: (dumpArrItems x xs' ++ ']' :: tail) from by
                simp [dumpJson]]
              rw [parseJson_arr_step, hArr]
  | hobj kvs hmem =>
      intro fuel tail hf
      cases kvs with
      | nil =>
          have hf' : 1 ≤ fuel := by simpa [sizeJson] using hf
          cases fuel with
          | zero => omega
          | succ f => simp [dumpJson, parseJson]
      | cons kv kvs' =>
          have hf' : 1 + sizeObjItems kv kvs' ≤ fuel := by simpa [sizeJson] using hf
          cases fuel with
          | zero => omega
          | succ f =>
              have hObj := parseObjItems_dump kvs' kv hmem f tail (by omega)
              rw [show dumpJson (Json.obj (kv :: kvs')) ++ tail
                  = '\x7b' :: (dumpObjItems kv kvs' ++ '\x7d' :: tail) from by
                simp [dumpJson]]
              rw [parseJson_obj_step, hObj]

theorem escapeChar_length (c : Char) : 1 ≤ (escapeChar c).length := by
  unfold escapeChar
  split
  · simp
  · split
    · simp
    · split
      · simp
      · simp

theorem escString_length (l : List Char) : l.length ≤ (escString l).length := by
  induction l with
  | nil => simp [escString]
  | cons c cs ih =>
      have := escapeChar_length c
      simp only [escString, List.length_append, List.length_cons]
      omega

theorem sizeArrItems_le : ∀ (xs : List Json) (x : Json),
    (∀ z, z ∈ x :: xs → sizeJson z ≤ (dumpJson z).length) →
    sizeArrItems x xs ≤ (dumpArrItems x xs).length + 1 := by
  intro xs
  induction xs with
  | nil =>
      intro x hmem
      have := hmem x (by simp)
      simp only [sizeArrItems, dumpArrItems]
      omega
  | cons y ys ih =>
      intro x hmem
      have hx := hmem x (by simp)
      have hrec := ih y (fun z hz => hmem z (by simp at hz ⊢; tauto))
      simp only [sizeArrItems, dumpArrItems, List.length_append, List.length_cons]
      omega

theorem sizeObjItems_le : ∀ (kvs : List (String × Json)) (kv : String × Json),
    (∀ z, z ∈ kv :: kvs → sizeJson z.2 ≤ (dumpJson z.2).length) →
    sizeObjItems kv kvs ≤ (dumpObjItems kv kvs).length + 1 := by
  intro kvs
  induction kvs with
  | nil =>
      intro kv hmem
      obtain ⟨k, v⟩ := kv
      have hv : sizeJson v ≤ (dumpJson v).length := hmem (k, v) (by simp)
      have hk := escString_length k.data
      simp only [sizeObjItems, dumpObjItems, List.length_append, List.length_cons]
      omega
  | cons kv2 kvs2 ih =>
      intro kv hmem
      obtain ⟨k, v⟩ := kv
      have hv : sizeJson v ≤ (dumpJson v).length := hmem (k, v) (by simp)
      have hk := escString_length k.data
      have hrec := ih kv2 (fun z hz => hmem z (by simp at hz ⊢; tauto))
      simp only [sizeObjItems, dumpObjItems, List.length_append, List.length_cons]
      omega

theorem sizeJson_le : ∀ v : Json, sizeJson v ≤ (dumpJson v).length := by
  intro v
  induction v using Json.memInduction with
  | hnull => simp [sizeJson, dumpJson]
  | hbool b => cases b <;> simp [sizeJson, dumpJson]
  | hstr s =>
      have := escString_length s.data
      simp only [sizeJson, dumpJson, List.length_cons, List.length_append]
      omega
  | harr xs hmem =>
      cases xs with
      | nil => simp [sizeJson, dumpJson]
      | cons x xs' =>
          have := sizeArrItems_le xs' x hmem
          simp only [sizeJson, dumpJson, List.length_cons, List.length_append]
          omega
  | hobj kvs hmem =>
      cases kvs with
      | nil => simp [sizeJson, dumpJson]
      | cons kv kvs' =>
          have := sizeObjItems_le kvs' kv hmem
          simp only [sizeJson, dumpJson, List.length_cons, List.length_append]
          omega

theorem jsonLoads_jsonDumps (v : Json) : jsonLoads (jsonDumps v) = some v := by
  unfold jsonLoads jsonDumps
  have hdata : (String.mk (dumpJson v)).data = dumpJson v := rfl
  rw [hdata]
  have h := parseJson_dumpJson v ((dumpJson v).length + 1) [] (by
    have := sizeJson_le v
    omega)
  rw [List.append_nil] at h
  rw [h]

/-! Helper lemmas: the on-disk vault layout. -/

theorem save_vault_eq (v : Json) (p : String) (s : List Nat) :
    save_vault v p s =
      natBE4 s.length ++ s ++ encrypt_data (jsonDumps v) ⟨p, s⟩ := rfl

theorem saltLengthOf_save (v : Json) (p : String) (s : List Nat)
    (hs : s.length < 4294967296) :
    saltLengthOf (save_vault v p s) = s.length := by
  unfold saltLengthOf
  rw [save_vault_eq, List.append_assoc, natBE4_take]
  exact fromBE_natBE4 _ hs

theorem saltOf_save (v : Json) (p : String) (s : List Nat)
    (hs : s.length < 4294967296) :
    saltOf (save_vault v p s) = s := by
  unfold saltOf
  rw [saltLengthOf_save v p s hs, save_vault_eq, List.append_assoc, natBE4_drop,
    List.take_left]

theorem ciphertextOf_save (v : Json) (p : String) (s : List Nat)
    (hs : s.length < 4294967296) :
    ciphertextOf (save_vault v p s) = encrypt_data (jsonDumps v) ⟨p, s⟩ := by
  unfold ciphertextOf
  rw [saltLengthOf_save v p s hs, save_vault_eq, List.append_assoc, natBE4_drop,
    List.drop_left]

theorem load_vault_save_vault (v : Json) (p1 p2 : String) (s : List Nat)
    (hs : s.length < 4294967296) :
    load_vault (save_vault v p1 s) p2 =
      match decrypt_data (encrypt_data (jsonDumps v) ⟨p1, s⟩) ⟨p2, s⟩ with
      | Except.error m =>
          Except.error ⟨"Unexpected error while loading vault: " ++ m⟩
      | Except.ok decrypted_json =>
          match jsonLoads decrypted_json with
          | some vault_data => Except.ok vault_data
          | none =>
              Except.error
                ⟨"Failed to decrypt vault. The master password may be incorrect or the file is corrupted."⟩ := by
  unfold load_vault
  rw [saltOf_save v p1 s hs, ciphertextOf_save v p1 s hs]
  rfl

/-- C1: Vault round-trip — for every JSON-representable vault value `v`
(a Python dict tree: objects with distinct keys) and every passphrase `p`,
saving with `save_vault(v, p)` (with its fresh 16-byte salt) and then
loading with `load_vault(p)` returns exactly `v`.  Exact equality implies
in particular order-insensitive equality of the services map. -/
theorem vault_roundtrip (v : Json) (p : String) (salt : List Nat)
    (hsalt : salt.length = SALT_LENGTH) (hwf : wfJson v = true) :
    load_vault (save_vault v p salt) p = Except.ok v := by
  have hs32 : salt.length < 4294967296 := by rw [hsalt]; decide
  rw [load_vault_save_vault v p p salt hs32]
  rw [decrypt_encrypt_ok]
  simp [jsonLoads_jsonDumps]

/-- C1 witness: round trip of the scenario vault of spec section 8 at a
concrete 16-byte salt. -/
theorem vault_roundtrip_witness :
    ([0, 1, 2, 3, 4, 5, 6, 7, 8, 9, 10, 11, 12, 13, 14, 15] : List Nat).length
        = SALT_LENGTH ∧
    wfJson (Json.obj
      [("services", Json.obj
          [("github", Json.obj [("password", Json.str "Tr0ub4dor&3")])]),
       ("metadata", Json.obj [("version", Json.str "1.0")])]) = true ∧
    load_vault
      (save_vault
        (Json.obj
          [("services", Json.obj
              [("github", Json.obj [("password", Json.str "Tr0ub4dor&3")])]),
           ("metadata", Json.obj [("version", Json.str "1.0")])])
        "correct-horse-battery-staple"
        [0, 1, 2, 3, 4, 5, 6, 7, 8, 9, 10, 11, 12, 13, 14, 15])
      "correct-horse-battery-staple" =
      Except.ok
        (Json.obj
          [("services", Json.obj
              [("github", Json.obj [("password", Json.str "Tr0ub4dor&3")])]),
           ("metadata", Json.obj [("version", Json.str "1.0")])]) :=
  ⟨by decide, by simp [wfJson, wfArr, wfMembers, nodupKeys, Obj.containsKey],
    vault_roundtrip _ _ _ (by decide)
      (by simp [wfJson, wfArr, wfMembers, nodupKeys, Obj.containsKey])⟩

/-- C2: Wrong-passphrase rejection — saving any vault value with `p1` and
loading with a different `p2` always raises `VaultOperationError` (with the
generic wrapping message, see C5) and never returns a parseable vault value.
The ideal authenticated cipher makes the cryptographic "always" exact. -/
theorem wrong_passphrase_rejection (v : Json) (p1 p2 : String) (salt : List Nat)
    (hsalt : salt.length = SALT_LENGTH) (hne : p1 ≠ p2) :
    load_vault (save_vault v p1 salt) p2 =
      Except.error
        ⟨"Unexpected error while loading vault: Decryption failed: Invalid token or corrupted data"⟩ := by
  have hs32 : salt.length < 4294967296 := by rw [hsalt]; decide
  rw [load_vault_save_vault v p1 p2 salt hs32]
  rw [decrypt_encrypt_wrong_password _ _ _ _ hne]
  rfl

/-- C2 witness: a concrete wrong-passphrase load fails. -/
theorem wrong_passphrase_rejection_witness :
    ([0, 1, 2, 3, 4, 5, 6, 7, 8, 9, 10, 11, 12, 13, 14, 15] : List Nat).length
        = SALT_LENGTH ∧
    ("master_password_123" : String) ≠ "wrong_password" ∧
    load_vault
      (save_vault (Json.obj [("services", Json.obj [])]) "master_password_123"
        [0, 1, 2, 3, 4, 5, 6, 7, 8, 9, 10, 11, 12, 13, 14, 15])
      "wrong_password" =
      Except.error
        ⟨"Unexpected error while loading vault: Decryption failed: Invalid token or corrupted data"⟩ :=
  ⟨by decide, by decide,
    wrong_passphrase_rejection _ _ _ _ (by decide) (by decide)⟩

/-- C3: On-disk vault layout — every file written by `save_vault` is exactly
the 4-byte big-endian salt-length header, then the salt, then the
authenticated ciphertext of the JSON-encoded vault value; and `load_vault`'s
parse functions (`saltLengthOf`, `saltOf`, `ciphertextOf`) recover exactly
those components from the file. -/
theorem vault_file_layout (v : Json) (p : String) (salt : List Nat)
    (hsalt : salt.length < 4294967296) :
    save_vault v p salt =
      natBE4 salt.length ++ salt ++
        encrypt_data (jsonDumps v) (derive_key p none salt).1 ∧
    saltLengthOf (save_vault v p salt) = salt.length ∧
    saltOf (save_vault v p salt) = salt ∧
    ciphertextOf (save_vault v p salt) =
      encrypt_data (jsonDumps v) (derive_key p none salt).1 :=
  ⟨rfl, saltLengthOf_save v p salt hsalt, saltOf_save v p salt hsalt,
    ciphertextOf_save v p salt hsalt⟩

/-- C3 witness: the layout parse at a concrete file. -/
theorem vault_file_layout_witness :
    ([9, 9, 9, 9, 9, 9, 9, 9, 9, 9, 9, 9, 9, 9, 9, 9] : List Nat).length
        < 4294967296 ∧
    saltOf (save_vault (Json.obj []) "pw"
        [9, 9, 9, 9, 9, 9, 9, 9, 9, 9, 9, 9, 9, 9, 9, 9]) =
      [9, 9, 9, 9, 9, 9, 9, 9, 9, 9, 9, 9, 9, 9, 9, 9] :=
  ⟨by decide, (vault_file_layout (Json.obj []) "pw" _ (by decide)).2.2.1⟩

/-- C4: Salt freshness — `save_vault` derives its key from the explicitly
fresh random salt (the `os.urandom` tape), never from a salt read back from
the file, so two saves of the same vault content under the same passphrase
with distinct fresh salts write different bytes, while both files still
decrypt to the same vault value. -/
theorem salt_freshness (v : Json) (p : String) (s1 s2 : List Nat)
    (h1 : s1.length = SALT_LENGTH) (h2 : s2.length = SALT_LENGTH)
    (hne : s1 ≠ s2) (hwf : wfJson v = true) :
    save_vault v p s1 ≠ save_vault v p s2 ∧
    load_vault (save_vault v p s1) p = Except.ok v ∧
    load_vault (save_vault v p s2) p = Except.ok v := by
  have hs1 : s1.length < 4294967296 := by rw [h1]; decide
  have hs2 : s2.length < 4294967296 := by rw [h2]; decide
  refine ⟨?_, ?_, ?_⟩
  · intro heq
    have hsalts := congrArg saltOf heq
    rw [saltOf_save v p s1 hs1, saltOf_save v p s2 hs2] at hsalts
    exact hne hsalts
  · rw [load_vault_save_vault v p p s1 hs1, decrypt_encrypt_ok]
    simp [jsonLoads_jsonDumps]
  · rw [load_vault_save_vault v p p s2 hs2, decrypt_encrypt_ok]
    simp [jsonLoads_jsonDumps]

/-- C4 witness: two concrete saves of the empty vault under the same
passphrase with distinct fresh salts differ on disk and both load back. -/
theorem salt_freshness_witness :
    save_vault (Json.obj [("services", Json.obj [])]) "pw"
        [0, 0, 0, 0, 0, 0, 0, 0, 0, 0, 0, 0, 0, 0, 0, 0] ≠
      save_vault (Json.obj [("services", Json.obj [])]) "pw"
        [1, 0, 0, 0, 0, 0, 0, 0, 0, 0, 0, 0, 0, 0, 0, 0] ∧
    load_vault
        (save_vault (Json.obj [("services", Json.obj [])]) "pw"
          [0, 0, 0, 0, 0, 0, 0, 0, 0, 0, 0, 0, 0, 0, 0, 0]) "pw" =
      Except.ok (Json.obj [("services", Json.obj [])]) ∧
    load_vault
        (save_vault (Json.obj [("services", Json.obj [])]) "pw"
          [1, 0, 0, 0, 0, 0, 0, 0, 0, 0, 0, 0, 0, 0, 0, 0]) "pw" =
      Except.ok (Json.obj [("services", Json.obj [])]) :=
  salt_freshness _ "pw" _ _ (by decide) (by decide) (by decide)
    (by simp [wfJson, wfArr, wfMembers, nodupKeys, Obj.containsKey])

/-- C5: the failing branch, evaluated — loading an existing vault with a
wrong passphrase produces a `VaultOperationError` whose message is the
generic "Unexpected error while loading vault: ..." wrapping (the
`except Exception` handler), not the intended "Failed to decrypt vault. The
master password may be incorrect or the file is corrupted." message, because
`DecryptionError` subclasses `LoxError(Exception)` rather than `ValueError`
and therefore never reaches the first handler of `load_vault`. -/
theorem load_wrong_password_message_eval :
    load_vault
      (save_vault (Json.obj [("services", Json.obj [])])
        "master_password_123" [0, 1, 2, 3, 4, 5, 6, 7, 8, 9, 10, 11, 12, 13, 14, 15])
      "wrong_password" =
      Except.error
        ⟨"Unexpected error while loading vault: Decryption failed: Invalid token or corrupted data"⟩ := by
  rw [load_vault_save_vault _ _ _ _ (by decide)]
  rw [decrypt_encrypt_wrong_password _ _ _ _ (by decide)]
  rfl

/-- C6: VaultStore read/write asymmetry — over any vault state whose
"services" section is the dict `s` (or is absent, in which case `s = []`,
matching `vault_data.get("services", {})`): `add_password_entry` raises
`VaultError` exactly when the name is already a key (never overwriting);
`update_password_entry` raises `VaultError` when the name is absent;
`delete_password_entry` on an absent name returns False without raising;
and `get_password` on an absent name returns None without raising. -/
theorem vault_store_rw_asymmetry (name password : String) (vault_data s : Obj)
    (hs : Obj.lookup vault_data "services" = some (Json.obj s) ∨
      (Obj.lookup vault_data "services" = none ∧ s = [])) :
    (Obj.containsKey s name = true →
      add_password_entry name password vault_data =
        Except.error VMError.vaultError) ∧
    (Obj.containsKey s name = false →
      update_password_entry name password vault_data =
        Except.error VMError.vaultError) ∧
    (Obj.containsKey s name = false →
      delete_password_entry name vault_data = (false, vault_data)) ∧
    (Obj.containsKey s name = false → get_password name vault_data = none) := by
  rcases hs with hs | ⟨hs, hsnil⟩
  · refine ⟨?_, ?_, ?_, ?_⟩
    · intro hc
      simp [add_password_entry, hs, hc]
    · intro hc
      have hl : Obj.lookup s name = none := by
        rw [Obj.containsKey_eq_isSome_lookup] at hc
        exact Option.not_isSome_iff_eq_none.mp (by simp [hc])
      simp [update_password_entry, hs, hl]
    · intro hc
      simp [delete_password_entry, hs, hc]
    · intro hc
      have hl : Obj.lookup s name = none := by
        rw [Obj.containsKey_eq_isSome_lookup] at hc
        exact Option.not_isSome_iff_eq_none.mp (by simp [hc])
      simp [get_password, hs, hl]
  · subst hsnil
    refine ⟨?_, ?_, ?_, ?_⟩
    · intro hc
      simp [Obj.containsKey] at hc
    · intro _
      simp [update_password_entry, hs]
    · intro _
      simp [delete_password_entry, hs]
    · intro _
      simp [get_password, hs]

/-- C6 witness: the four behaviours at a concrete vault state. -/
theorem vault_store_rw_asymmetry_witness :
    (add_password_entry "github" "new" [("services", Json.obj
        [("github", Json.obj [("password", Json.str "old")])])] =
      Except.error VMError.vaultError) ∧
    (update_password_entry "gitlab" "new" [("services", Json.obj
        [("github", Json.obj [("password", Json.str "old")])])] =
      Except.error VMError.vaultError) ∧
    (delete_password_entry "gitlab" [("services", Json.obj
        [("github", Json.obj [("password", Json.str "old")])])] =
      (false, [("services", Json.obj
        [("github", Json.obj [("password", Json.str "old")])])])) ∧
    (get_password "gitlab" [("services", Json.obj
        [("github", Json.obj [("password", Json.str "old")])])] = none) := by
  refine ⟨?_, ?_, ?_, ?_⟩
  · exact (vault_store_rw_asymmetry "github" "new"
      [("services", Json.obj [("github", Json.obj [("password", Json.str "old")])])]
      [("github", Json.obj [("password", Json.str "old")])]
      (Or.inl rfl)).1 rfl
  · exact (vault_store_rw_asymmetry "gitlab" "new"
      [("services", Json.obj [("github", Json.obj [("password", Json.str "old")])])]
      [("github", Json.obj [("password", Json.str "old")])]
      (Or.inl rfl)).2.1 rfl
  · exact (vault_store_rw_asymmetry "gitlab" "new"
      [("services", Json.obj [("github", Json.obj [("password", Json.str "old")])])]
      [("github", Json.obj [("password", Json.str "old")])]
      (Or.inl rfl)).2.2.1 rfl
  · exact (vault_store_rw_asymmetry "gitlab" "new"
      [("services", Json.obj [("github", Json.obj [("password", Json.str "old")])])]
      [("github", Json.obj [("password", Json.str "old")])]
      (Or.inl rfl)).2.2.2 rfl

/-- C10: Update frame — on any vault state whose "services" dict `s` maps
`name` to the record `r`, a successful `update_password_entry` changes only
the "password" field of that record: every top-level key other than
"services" (in particular "metadata") is unchanged, every other service
entry is unchanged, and every field of the updated record other than
"password" is unchanged, while "password" becomes the new password. -/
theorem update_entry_frame (name password : String) (vault_data s r v' : Obj)
    (hs : Obj.lookup vault_data "services" = some (Json.obj s))
    (hr : Obj.lookup s name = some (Json.obj r))
    (hup : update_password_entry name password vault_data = Except.ok v') :
    (∀ k, k ≠ "services" → Obj.lookup v' k = Obj.lookup vault_data k) ∧
    Obj.lookup v' "metadata" = Obj.lookup vault_data "metadata" ∧
    ∃ s', Obj.lookup v' "services" = some (Json.obj s') ∧
      (∀ n, n ≠ name → Obj.lookup s' n = Obj.lookup s n) ∧
      ∃ r', Obj.lookup s' name = some (Json.obj r') ∧
        (∀ fld, fld ≠ "password" → Obj.lookup r' fld = Obj.lookup r fld) ∧
        Obj.lookup r' "password" = some (Json.str password) := by
  have hv' : v' = Obj.insertPut vault_data "services"
      (Json.obj (Obj.insertPut s name
        (Json.obj (Obj.insertPut r "password" (Json.str password))))) := by
    simp only [update_password_entry, hs, hr] at hup
    exact ((Except.ok.injEq _ _).mp hup).symm
  subst hv'
  refine ⟨?_, ?_, ?_⟩
  · intro k hk
    exact Obj.lookup_insertPut_ne vault_data "services" k _ hk
  · exact Obj.lookup_insertPut_ne vault_data "services" "metadata" _ (by decide)
  · refine ⟨Obj.insertPut s name
      (Json.obj (Obj.insertPut r "password" (Json.str password))),
      Obj.lookup_insertPut_self vault_data "services" _, ?_, ?_⟩
    · intro n hn
      exact Obj.lookup_insertPut_ne s name n _ hn
    · refine ⟨Obj.insertPut r "password" (Json.str password),
        Obj.lookup_insertPut_self s name _, ?_,
        Obj.lookup_insertPut_self r "password" _⟩
      intro fld hfld
      exact Obj.lookup_insertPut_ne r "password" fld _ hfld

/-- C10 witness: the frame at a concrete two-service vault with metadata. -/
theorem update_entry_frame_witness :
    Obj.lookup [("services", Json.obj
        [("github", Json.obj [("password", Json.str "old"),
            ("username", Json.str "octo")]),
         ("mail", Json.obj [("password", Json.str "m")])]),
       ("metadata", Json.obj [("version", Json.str "1.0")])] "services" =
      some (Json.obj
        [("github", Json.obj [("password", Json.str "old"),
            ("username", Json.str "octo")]),
         ("mail", Json.obj [("password", Json.str "m")])]) ∧
    (∀ k, k ≠ "services" →
      Obj.lookup [("services", Json.obj
          [("github", Json.obj [("password", Json.str "new"),
              ("username", Json.str "octo")]),
           ("mail", Json.obj [("password", Json.str "m")])]),
         ("metadata", Json.obj [("version", Json.str "1.0")])] k =
        Obj.lookup [("services", Json.obj
          [("github", Json.obj [("password", Json.str "old"),
              ("username", Json.str "octo")]),
           ("mail", Json.obj [("password", Json.str "m")])]),
         ("metadata", Json.obj [("version", Json.str "1.0")])] k) := by
  constructor
  · rfl
  · exact (update_entry_frame "github" "new"
      [("services", Json.obj
          [("github", Json.obj [("password", Json.str "old"),
              ("username", Json.str "octo")]),
           ("mail", Json.obj [("password", Json.str "m")])]),
         ("metadata", Json.obj [("version", Json.str "1.0")])]
      [("github", Json.obj [("password", Json.str "old"),
          ("username", Json.str "octo")]),
       ("mail", Json.obj [("password", Json.str "m")])]
      [("password", Json.str "old"), ("username", Json.str "octo")]
      [("services", Json.obj
          [("github", Json.obj [("password", Json.str "new"),
              ("username", Json.str "octo")]),
           ("mail", Json.obj [("password", Json.str "m")])]),
         ("metadata", Json.obj [("version", Json.str "1.0")])]
      rfl rfl rfl).1

/-- C7: Credential chain store — `store_credentials` tries the backends in
the fixed order keyring, env_file, fallback; the first backend whose store
succeeds receives the record re-stored with its `storage_backend` field
stamped to that backend's identifier, the sticky `_used_backend` is set to
that backend, and success is returned; when every backend fails it raises
`CredentialStorageError("All credential storage methods failed")`. -/
theorem credential_store_chain (a s r e : String) (w : CredWorld) :
    (w.keyringOk = true →
      store_credentials a s r e w =
        Except.ok { w with
          keyringStore := some (Json.obj
            [("access_key", Json.str a), ("secret_key", Json.str s),
             ("region", Json.str r), ("expiry", Json.str e),
             ("storage_backend", Json.str "keyring")]),
          used_backend := some StorageBackend.keyring }) ∧
    (w.keyringOk = false → w.fileOk = true →
      store_credentials a s r e w =
        Except.ok { w with
          fileStore := some (Json.obj
            [("access_key", Json.str a), ("secret_key", Json.str s),
             ("region", Json.str r), ("expiry", Json.str e),
             ("storage_backend", Json.str "env_file")]),
          used_backend := some StorageBackend.env_file }) ∧
    (w.keyringOk = false → w.fileOk = false → w.envOk = true →
      store_credentials a s r e w =
        Except.ok { w with
          envAccess := some a, envSecret := some s, envRegion := some r,
          used_backend := some StorageBackend.fallback }) ∧
    (w.keyringOk = false → w.fileOk = false → w.envOk = false →
      store_credentials a s r e w =
        Except.error "All credential storage methods failed") := by
  refine ⟨?_, ?_, ?_, ?_⟩
  · intro hk
    simp [store_credentials, store_loop, backend_preference, storage_method,
      store_with_keyring, hk, Obj.insertPut, StorageBackend.value]
  · intro hk hf
    simp [store_credentials, store_loop, backend_preference, storage_method,
      store_with_keyring, store_with_env_file, hk, hf, Obj.insertPut,
      StorageBackend.value]
  · intro hk hf he
    simp [store_credentials, store_loop, backend_preference, storage_method,
      store_with_keyring, store_with_env_file, store_fallback, hk, hf, he,
      Obj.insertPut, getStrField, Obj.lookup, StorageBackend.value]
  · intro hk hf he
    simp [store_credentials, store_loop, backend_preference, storage_method,
      store_with_keyring, store_with_env_file, store_fallback, hk, hf, he]

/-- C7 witness: with the keyring unavailable and the file writable, the
record lands in the file stamped "env_file" and the sticky backend is set. -/
theorem credential_store_chain_witness :
    (CredWorld.mk false none true none true none none none none).keyringOk
        = false ∧
    (CredWorld.mk false none true none true none none none none).fileOk
        = true ∧
    store_credentials "AKIA" "SECRET" "us-east-1" "2026-10-19"
        (CredWorld.mk false none true none true none none none none) =
      Except.ok { CredWorld.mk false none true none true none none none none with
        fileStore := some (Json.obj
          [("access_key", Json.str "AKIA"), ("secret_key", Json.str "SECRET"),
           ("region", Json.str "us-east-1"), ("expiry", Json.str "2026-10-19"),
           ("storage_backend", Json.str "env_file")]),
        used_backend := some StorageBackend.env_file } :=
  ⟨rfl, rfl,
    (credential_store_chain "AKIA" "SECRET" "us-east-1" "2026-10-19"
      (CredWorld.mk false none true none true none none none none)).2.1 rfl rfl⟩

/-- C8: Credential chain retrieve on total miss — with no sticky backend,
nothing in the keyring or the file, and no environment variables set,
`get_credentials` returns without raising; the result carries no credential
(access key and secret key are both None — the environment fallback's
3-tuple, with the default region), and the sticky backend is set to the
fallback. -/
theorem credential_retrieve_total_miss (w : CredWorld)
    (h1 : w.used_backend = none) (h2 : w.keyringStore = none)
    (h3 : w.fileStore = none) (h4 : w.envAccess = none)
    (h5 : w.envSecret = none) (h6 : w.envRegion = none) :
    get_credentials w =
      ((none, none, some "us-east-1"),
        { w with used_backend := some StorageBackend.fallback }) := by
  cases hk : w.keyringOk <;> cases hf : w.fileOk <;>
    simp [get_credentials, probe_loop, backend_preference, get_from_backend,
      get_from_keyring, get_from_env_file, get_fallback, h1, h2, h3, h4, h5, h6,
      hk, hf]

/-- C8 witness: the all-empty world. -/
theorem credential_retrieve_total_miss_witness :
    get_credentials (CredWorld.mk true none true none true none none none none) =
      ((none, none, some "us-east-1"),
        { CredWorld.mk true none true none true none none none none with
          used_backend := some StorageBackend.fallback }) :=
  credential_retrieve_total_miss
    (CredWorld.mk true none true none true none none none none)
    rfl rfl rfl rfl rfl rfl

/-- C9: Credential chain clear — `clear_credentials` attempts deletion on
every backend even when an earlier backend's deletion fails (the file and
the environment variables are handled regardless of the keyring outcome),
returns the conjunction of the per-backend outcomes (keyring deletion
succeeds when the facility is up and something is stored; file deletion
succeeds when nothing is stored or the file system cooperates; popping the
environment variables always succeeds), and always resets the sticky
`_used_backend`. -/
theorem credential_clear_all_backends (w : CredWorld) :
    (clear_credentials w).1 =
      ((w.keyringOk && w.keyringStore.isSome) &&
        (!w.fileStore.isSome || w.fileOk)) ∧
    (clear_credentials w).2.used_backend = none ∧
    (clear_credentials w).2.envAccess = none ∧
    (clear_credentials w).2.envSecret = none ∧
    (clear_credentials w).2.envRegion = none ∧
    (clear_credentials w).2.keyringStore =
      (if w.keyringOk && w.keyringStore.isSome then none else w.keyringStore) ∧
    (clear_credentials w).2.fileStore =
      (if w.fileStore.isSome && w.fileOk then none else w.fileStore) := by
  obtain ⟨ko, ks, fo, fs, eo, ea, es, er, ub⟩ := w
  cases ko <;> cases fo <;> cases ks <;> cases fs <;>
    simp [clear_credentials]
